import Mathlib

/-!
Verification of the opencode-blackboard coordination engine.

This file gives a shallow embedding of the coordination layer of the
`YamsBlackboard` class (src blackboard interaction layer, second revision:
the one with subscriptions and notifications) and proves or refutes the
frozen claims about it.

Modelling conventions:
* The external YAMS tagged-document store is modelled as a `Store` record
  holding the decoded entity lists.  The store's `list --tags ... --match-all-tags`
  primitive is modelled as filtering entities whose canonical tag set
  (rebuilt by the same `build*Tags` functions the code uses on writes)
  contains every query tag.  `cat` of an entity path is modelled as lookup
  by id (`List.find?`).  Writes (`yams add` at an existing path) are
  replace-or-append by id.
* ISO timestamps are modelled as naturals ordered the same way
  (`new Date(x) < new Date(y)` is `x < y`); `confidence` floats in `[0,1]`
  are modelled as rationals (only `<` comparisons are performed on them).
* `genId` (`Date.now()` + random suffix) is modelled as a fresh-id counter
  threaded through the store (`nextId`); only freshness matters.
* `reconcile` runs `yams session merge`, which moves documents between
  session scopes inside the store; in the single-corpus model it leaves the
  decoded entity lists unchanged, so it is the identity on `Store`.
-/

namespace Blackboard

/-- Task lifecycle status, the closed enum of `Task.status` in the schema. -/
inductive TaskStatus where
  | pending | claimed | working | blocked | review | completed | failed | cancelled
deriving DecidableEq, Repr

/-- The string the code writes for a task status (used in tags and events). -/
def TaskStatus.name : TaskStatus → String
  | .pending => "pending"
  | .claimed => "claimed"
  | .working => "working"
  | .blocked => "blocked"
  | .review => "review"
  | .completed => "completed"
  | .failed => "failed"
  | .cancelled => "cancelled"

/-- Task record, from the schema (`tasks/{id}.json`).  `priority` is kept
optional because the code defensively reads it as `priority ?? 2`. -/
structure Task where
  id : String
  title : String
  description : Option String := none
  type : String
  priority : Option Nat := none
  status : TaskStatus
  created_by : String
  assigned_to : Option String := none
  claimed_at : Option Nat := none
  depends_on : Option (List String) := none
  findings : Option (List String) := none
  artifacts : Option (List String) := none
  context_id : Option String := none
  error : Option String := none
deriving DecidableEq, Repr

/-- Finding record, decoded from the markdown frontmatter document at
`findings/{topic}/{id}.md`.  Statuses, scopes and severities are open
string enums in the stored document. -/
structure Finding where
  id : String
  agent_id : String
  topic : String
  title : String
  content : String := ""
  confidence : ℚ := 1
  severity : Option String := none
  status : String := "published"
  scope : String := "persistent"
  context_id : Option String := none
deriving DecidableEq, Repr

/-- Agent card stored at `agents/{id}.json`. -/
structure AgentCard where
  id : String
  name : String := ""
  capabilities : List String := []
  status : String := "active"
deriving DecidableEq, Repr

/-- Subscription pattern kinds (`pattern_type`). -/
inductive PatternType where
  | topic | entity | agent | status | context
deriving DecidableEq, Repr

/-- Subscription status enum. -/
inductive SubStatus where
  | active | paused | expired
deriving DecidableEq, Repr

/-- Optional subscription filters (`filters` field). -/
structure SubscriptionFilters where
  severity : Option (List String) := none
  min_confidence : Option ℚ := none
  exclude_self : Option Bool := none
deriving DecidableEq, Repr

/-- Subscription record stored at `subscriptions/{subscriberId}/{id}.json`. -/
structure Subscription where
  id : String
  subscriber_id : String
  pattern_type : PatternType
  pattern_value : String
  filters : Option SubscriptionFilters := none
  created_at : Nat := 0
  expires_at : Option Nat := none
  status : SubStatus := .active
deriving DecidableEq, Repr

/-- Transient event handed to the subscription bus by every mutating
operation; optional fields depend on the source entity. -/
structure BlackboardEvent where
  event_type : String
  source_id : String
  source_type : String
  source_agent_id : String
  topic : Option String := none
  severity : Option String := none
  status : Option String := none
  context_id : Option String := none
  title : String := ""
deriving DecidableEq, Repr

/-- Notification mailbox entry (the denormalized `summary` is flattened
into the four `summary_*` fields). -/
structure Notification where
  id : String
  subscription_id : String
  event_type : String
  source_id : String
  source_type : String
  source_agent_id : String
  summary_title : String
  summary_topic : Option String := none
  summary_severity : Option String := none
  summary_status : Option String := none
  recipient_id : String
  created_at : Nat
  status : String := "unread"
deriving DecidableEq, Repr

/-- Lightweight finding descriptor inside a compaction manifest. -/
structure FindingRef where
  id : String
  topic : String
  severity : Option String := none
  status : String
  confidence : ℚ
deriving DecidableEq, Repr

/-- Lightweight task descriptor inside a compaction manifest. -/
structure TaskRef where
  id : String
  type : String
  status : TaskStatus
  priority : Nat
deriving DecidableEq, Repr

/-- Aggregate counts carried by a compaction manifest. -/
structure ManifestStats where
  totalFindings : Nat
  unresolvedFindings : Nat
  activeTasks : Nat
  blockedTasks : Nat
deriving DecidableEq, Repr

/-- Machine-readable compaction manifest persisted at
`contexts/{id}/compaction-manifest.json`. -/
structure CompactionManifest where
  contextId : String
  timestamp : Nat
  findingIds : List FindingRef
  taskIds : List TaskRef
  agentIds : List String
  stats : ManifestStats
deriving DecidableEq, Repr

/-- The shared YAMS store, decoded: one list per entity family plus the
fresh-id counter standing in for `genId`. -/
structure Store where
  tasks : List Task := []
  findings : List Finding := []
  agents : List AgentCard := []
  subs : List Subscription := []
  notifications : List Notification := []
  manifests : List (String × CompactionManifest) := []
  nextId : Nat := 0
deriving DecidableEq, Repr

/-- The engine's own instance tag (`inst:${this.instanceId}`); the
instance id is fixed for the process lifetime. -/
def instanceTag : String := "inst:self"

/-- Read `tasks/{taskId}.json` (`getTask`): `yams cat` by path, null on
a missing document. -/
def getTask (st : Store) (taskId : String) : Option Task :=
  st.tasks.find? (fun t => t.id == taskId)

/-- Write a task document at `tasks/{t.id}.json`: upsert by path. -/
def putTask (st : Store) (t : Task) : Store :=
  if st.tasks.any (fun u => u.id == t.id) then
    { st with tasks := st.tasks.map (fun u => if u.id == t.id then t else u) }
  else
    { st with tasks := st.tasks ++ [t] }

/-- Read a finding by id (`getFinding`): `yams cat findings/**/{id}.md`
plus frontmatter parse, null when absent. -/
def getFinding (st : Store) (findingId : String) : Option Finding :=
  st.findings.find? (fun f => f.id == findingId)

/-- Write a finding document at `findings/{topic}/{id}.md`: upsert by id. -/
def putFinding (st : Store) (f : Finding) : Store :=
  if st.findings.any (fun g => g.id == f.id) then
    { st with findings := st.findings.map (fun g => if g.id == f.id then f else g) }
  else
    { st with findings := st.findings ++ [f] }

/-- Tag set written with every task document (`buildTaskTags`).  A missing
priority stringifies as `undefined`, exactly as the template literal does. -/
def buildTaskTags (t : Task) : List String :=
  ["task", instanceTag,
   "type:" ++ t.type,
   "status:" ++ t.status.name,
   "priority:" ++ (match t.priority with | some p => toString p | none => "undefined"),
   "creator:" ++ t.created_by]
  ++ (match t.assigned_to with | some a => ["assignee:" ++ a] | none => [])
  ++ (match t.context_id with | some c => ["ctx:" ++ c] | none => [])

/-- Tag set written with every finding document (`buildFindingTags`). -/
def buildFindingTags (f : Finding) : List String :=
  ["finding", instanceTag,
   "agent:" ++ f.agent_id,
   "topic:" ++ f.topic,
   "scope:" ++ f.scope,
   "status:" ++ f.status]
  ++ (match f.severity with | some s => ["severity:" ++ s] | none => [])
  ++ (match f.context_id with | some c => ["ctx:" ++ c] | none => [])

/-- Task query filter (`TaskQuery`). -/
structure TaskQuery where
  instance_id : Option String := none
  type : Option String := none
  status : Option TaskStatus := none
  priority : Option Nat := none
  created_by : Option String := none
  assigned_to : Option String := none
  context_id : Option String := none
  limit : Nat := 100
  offset : Nat := 0
deriving DecidableEq, Repr

/-- The tag list `queryTasks` builds from its filter before calling
`yams list --match-all-tags`. -/
def taskQueryTags (q : TaskQuery) : List String :=
  ["task"]
  ++ (match q.instance_id with | some i => ["inst:" ++ i] | none => [])
  ++ (match q.type with | some ty => ["type:" ++ ty] | none => [])
  ++ (match q.status with | some s => ["status:" ++ s.name] | none => [])
  ++ (match q.priority with | some p => ["priority:" ++ toString p] | none => [])
  ++ (match q.created_by with | some c => ["creator:" ++ c] | none => [])
  ++ (match q.assigned_to with | some a => ["assignee:" ++ a] | none => [])
  ++ (match q.context_id with | some c => ["ctx:" ++ c] | none => [])

/-- `queryTasks`: tag-filtered list of task documents, each re-fetched by
the id extracted from its path and dropped when the fetch fails. -/
def queryTasks (st : Store) (q : TaskQuery) : List Task :=
  (st.tasks.filter (fun t => (taskQueryTags q).all (fun tg => (buildTaskTags t).contains tg))).filterMap
    (fun d => getTask st d.id)

/-- The dependency gate inside `getReadyTasks`: a task with a non-empty
`depends_on` is kept only when every listed dependency fetches to an
existing task whose status is `completed`. -/
def depsCompleted (st : Store) (t : Task) : Bool :=
  match t.depends_on with
  | none => true
  | some l =>
    if l.isEmpty then true
    else l.all (fun i =>
      match getTask st i with
      | some d => d.status == TaskStatus.completed
      | none => false)

/-- The ascending-priority sort at the end of `getReadyTasks`
(`(a.priority ?? 2) - (b.priority ?? 2)` comparator, stable). -/
def sortByPriority (l : List Task) : List Task :=
  l.mergeSort (fun a b => a.priority.getD 2 ≤ b.priority.getD 2)

/-- `getReadyTasks`: all pending tasks passing the dependency gate,
optionally restricted to the capability set, sorted by priority. -/
def getReadyTasks (st : Store) (agentCapabilities : Option (List String)) : List Task :=
  let pending := queryTasks st { status := some .pending, limit := 100, offset := 0 }
  let ready := pending.filter (fun t => depsCompleted st t)
  match agentCapabilities with
  | some caps =>
    if caps.isEmpty then sortByPriority ready
    else sortByPriority (ready.filter (fun t => caps.contains t.type))
  | none => sortByPriority ready

/-- The per-subscription acceptance test inside `findMatchingSubscriptions`:
lazy expiry, the `exclude_self` default-true filter, the pattern dispatch on
`pattern_type`, and the severity allow-list (which the code only consults
when the event itself carries a severity). -/
def subscriptionMatches (now : Nat) (e : BlackboardEvent) (s : Subscription) : Bool :=
  (match s.expires_at with | some t => !(t < now : Bool) | none => true)
  && !((s.filters.bind (fun f => f.exclude_self) != some false) && s.subscriber_id == e.source_agent_id)
  && (match s.pattern_type with
      | .topic => e.topic == some s.pattern_value
      | .agent => e.source_agent_id == s.pattern_value
      | .status => e.status == some s.pattern_value
      | .context => e.context_id == some s.pattern_value
      | .entity => e.source_type == s.pattern_value)
  && (match s.filters.bind (fun f => f.severity) with
      | some l =>
        if l.isEmpty then true
        else match e.severity with
          | some sev => l.contains sev
          | none => true
      | none => true)

/-- `findMatchingSubscriptions`: the tag query returns the documents whose
stored tag set carries `status:active` (written consistently with the
record's own status), then each parsed subscription runs the acceptance
test above. -/
def findMatchingSubscriptions (now : Nat) (st : Store) (e : BlackboardEvent) : List Subscription :=
  (st.subs.filter (fun s => s.status == SubStatus.active)).filter
    (fun s => subscriptionMatches now e s)

/-- `createNotification`: builds the unread mailbox entry, denormalizing
the event summary, and writes it under the recipient's mailbox path. -/
def createNotification (now : Nat) (st : Store) (sub : Subscription) (e : BlackboardEvent) :
    Store :=
  let n : Notification :=
    { id := "notif-" ++ toString st.nextId
      subscription_id := sub.id
      event_type := e.event_type
      source_id := e.source_id
      source_type := e.source_type
      source_agent_id := e.source_agent_id
      summary_title := e.title
      summary_topic := e.topic
      summary_severity := e.severity
      summary_status := e.status
      recipient_id := sub.subscriber_id
      created_at := now
      status := "unread" }
  { st with notifications := st.notifications ++ [n], nextId := st.nextId + 1 }

/-- `triggerNotifications`: fan the event out to every matching
subscription, creating one notification per match (individual write
failures are swallowed; in the model writes succeed), returning the count. -/
def triggerNotifications (now : Nat) (st : Store) (e : BlackboardEvent) : Nat × Store :=
  (findMatchingSubscriptions now st e).foldl
    (fun acc sub => (acc.1 + 1, createNotification now acc.2 sub e))
    (0, st)

/-- Task creation input (`CreateTask`).  The `types.ts` module is not in
the source tree; the field list follows the schema document and the
`bb_create_task` plugin caller: no id, no status, no assignment fields. -/
structure CreateTask where
  title : String
  description : Option String := none
  type : String
  priority : Option Nat := none
  created_by : String
  depends_on : Option (List String) := none
  context_id : Option String := none
deriving DecidableEq, Repr

/-- `createTask`: assign a fresh id, force `status := pending`, default
the priority to 2, store the record, reconcile (a no-op on the decoded
model), and emit `task_created`. -/
def createTask (now : Nat) (st : Store) (input : CreateTask) : Task × Store :=
  let id := "t-" ++ toString st.nextId
  let task : Task :=
    { id := id
      title := input.title
      description := input.description
      type := input.type
      priority := some (input.priority.getD 2)
      status := .pending
      created_by := input.created_by
      depends_on := input.depends_on
      context_id := input.context_id }
  let st1 := putTask { st with nextId := st.nextId + 1 } task
  let ev : BlackboardEvent :=
    { event_type := "task_created"
      source_id := id
      source_type := "task"
      source_agent_id := task.created_by
      status := some task.status.name
      context_id := task.context_id
      title := task.title }
  (task, (triggerNotifications now st1 ev).2)

/-- The in-place mutation `claimTask` performs once the pending check has
passed: `status=claimed`, `assigned_to=agentId`, `claimed_at=now`. -/
def claimMutate (now : Nat) (t : Task) (agentId : String) : Task :=
  { t with status := .claimed, assigned_to := some agentId, claimed_at := some now }

/-- The write half of `claimTask`: rewrite the task document and emit
`task_claimed`.  The write is unconditional — it does not re-check the
stored status it read earlier. -/
def claimCommit (now : Nat) (st : Store) (t : Task) (taskId agentId : String) : Task × Store :=
  let updated := claimMutate now t agentId
  let st1 := putTask st updated
  let ev : BlackboardEvent :=
    { event_type := "task_claimed"
      source_id := taskId
      source_type := "task"
      source_agent_id := agentId
      status := some updated.status.name
      context_id := updated.context_id
      title := updated.title }
  (updated, (triggerNotifications now st1 ev).2)

/-- `claimTask`: read the task, return null unless it exists with status
`pending`, otherwise mutate and commit. -/
def claimTask (now : Nat) (st : Store) (taskId agentId : String) : Option Task × Store :=
  match getTask st taskId with
  | none => (none, st)
  | some t =>
    if t.status = TaskStatus.pending then
      let p := claimCommit now st t taskId agentId
      (some p.1, p.2)
    else (none, st)

/-- Two agents racing `claimTask` on the same task: both `getTask` reads
complete before either write (the store is the only synchronization point
and each call suspends at each I/O boundary), then each claimant runs
its commit on its own stale read. -/
def claimTaskRace (now : Nat) (st : Store) (taskId a b : String) :
    Option Task × Option Task × Store :=
  let ra := getTask st taskId
  let rb := getTask st taskId
  let sa : Option Task × Store :=
    match ra with
    | none => (none, st)
    | some t =>
      if t.status = TaskStatus.pending then
        let p := claimCommit now st t taskId a
        (some p.1, p.2)
      else (none, st)
  let sb : Option Task × Store :=
    match rb with
    | none => (none, sa.2)
    | some t =>
      if t.status = TaskStatus.pending then
        let p := claimCommit now sa.2 t taskId b
        (some p.1, p.2)
      else (none, sa.2)
  (sa.1, sb.1, sb.2)

/-- The named fields `updateTask` may merge (`Partial<Pick<Task, "status" |
"error" | "findings" | "artifacts">>`).  The outer option on `findings` /
`artifacts` is key presence: `completeTask` passes the keys even when the
values are undefined, which `Object.assign` then writes through. -/
structure TaskUpdates where
  status : Option TaskStatus := none
  error : Option String := none
  findings : Option (Option (List String)) := none
  artifacts : Option (Option (List String)) := none
deriving DecidableEq, Repr

/-- The `Object.assign(task, updates)` merge. -/
def applyUpdates (t : Task) (u : TaskUpdates) : Task :=
  { t with
    status := u.status.getD t.status
    error := match u.error with | some e => some e | none => t.error
    findings := match u.findings with | some v => v | none => t.findings
    artifacts := match u.artifacts with | some v => v | none => t.artifacts }

/-- `updateTask`: read, merge the named fields, rewrite, and emit
`task_completed` / `task_updated` when the status actually changed,
attributing the actor to `assigned_to` if set else `created_by`. -/
def updateTask (now : Nat) (st : Store) (taskId : String) (u : TaskUpdates) :
    Option Task × Store :=
  match getTask st taskId with
  | none => (none, st)
  | some t =>
    let merged := applyUpdates t u
    let st1 := putTask st merged
    match u.status with
    | some s =>
      if s ≠ t.status then
        let ev : BlackboardEvent :=
          { event_type := if s = TaskStatus.completed then "task_completed" else "task_updated"
            source_id := taskId
            source_type := "task"
            source_agent_id := merged.assigned_to.getD merged.created_by
            status := some merged.status.name
            context_id := merged.context_id
            title := merged.title }
        (some merged, (triggerNotifications now st1 ev).2)
      else (some merged, st1)
    | none => (some merged, st1)

/-- `completeTask`: `updateTask` fixing the status to `completed` and
writing through the optional results (keys always present). -/
def completeTask (now : Nat) (st : Store) (taskId : String)
    (findings : Option (List String)) (artifacts : Option (List String)) :
    Option Task × Store :=
  updateTask now st taskId
    { status := some .completed, findings := some findings, artifacts := some artifacts }

/-- `failTask`: `updateTask` fixing the status to `failed` with the error. -/
def failTask (now : Nat) (st : Store) (taskId err : String) : Option Task × Store :=
  updateTask now st taskId { status := some .failed, error := some err }

/-- Finding query filter (`FindingQuery`).  `context_id` is part of the
filter type but the tag builder below never consumes it. -/
structure FindingQuery where
  instance_id : Option String := none
  topic : Option String := none
  agent_id : Option String := none
  severity : Option (List String) := none
  scope : Option String := none
  status : Option String := none
  context_id : Option String := none
  min_confidence : Option ℚ := none
  limit : Nat := 100
  offset : Nat := 0
deriving DecidableEq, Repr

/-- The tag list `queryFindings` builds before `yams list --match-all-tags`:
note that EVERY severity in the filter's list is pushed as its own tag into
the match-all conjunction, and `context_id` is not consulted. -/
def findingQueryTags (q : FindingQuery) : List String :=
  ["finding"]
  ++ (match q.instance_id with | some i => ["inst:" ++ i] | none => [])
  ++ (match q.topic with | some t => ["topic:" ++ t] | none => [])
  ++ (match q.agent_id with | some a => ["agent:" ++ a] | none => [])
  ++ (q.severity.getD []).map (fun s => "severity:" ++ s)
  ++ (match q.scope with | some s => ["scope:" ++ s] | none => [])
  ++ (match q.status with | some s => ["status:" ++ s] | none => [])

/-- The post-fetch confidence drop in `queryFindings`:
`if (query.min_confidence && finding.confidence < query.min_confidence)`,
where a zero minimum is falsy and disables the filter. -/
def minConfidenceDrops (q : FindingQuery) (f : Finding) : Bool :=
  match q.min_confidence with
  | some m => m ≠ 0 && f.confidence < m
  | none => false

/-- `queryFindings`: tag-filtered document list, each re-fetched by id and
then run through the confidence drop.  No client-side severity filter
exists on this path. -/
def queryFindings (st : Store) (q : FindingQuery) : List Finding :=
  (st.findings.filter (fun f => (findingQueryTags q).all (fun tg => (buildFindingTags f).contains tg))).filterMap
    (fun d =>
      match getFinding st d.id with
      | some f => if minConfidenceDrops q f then none else some f
      | none => none)

/-- Modelled from the spec: the query semantics sections 4.1/4.3 describe —
tags other than severity are ANDed server-side, while the severity list is
applied afterwards, client-side, as an allow-list OR (and `min_confidence`
as a post-fetch filter).  Used only to exhibit the divergence of
`queryFindings` from this description. -/
def queryFindingsSpec (st : Store) (q : FindingQuery) : List Finding :=
  let serverTags := findingQueryTags { q with severity := none }
  ((st.findings.filter (fun f => serverTags.all (fun tg => (buildFindingTags f).contains tg))).filterMap
    (fun d =>
      match getFinding st d.id with
      | some f => if minConfidenceDrops q f then none else some f
      | none => none)).filter
    (fun f =>
      match q.severity with
      | some l =>
        if l.isEmpty then true
        else match f.severity with
          | some sev => l.contains sev
          | none => false
      | none => true)

/-- `acknowledgeFinding`: a tag/metadata-only `yams update` against the
id glob, retagging the matching finding document `status:acknowledged`.
The storage collaborator's update against a glob with no matching document
is modelled as the successful no-op the read-degrading store contract
prescribes for NotFound.  No event is emitted on this path. -/
def acknowledgeFinding (st : Store) (findingId agentId : String) : Store :=
  let _ := agentId -- recorded only in document metadata (`acknowledged_by`)
  let updated := st.findings.map
    (fun f => if f.id == findingId then { f with status := "acknowledged" } else f)
  { st with findings := updated }

/-- `resolveFinding`: reads the finding first, retags the document
`status:resolved`, then — only when the initial read succeeded — emits a
`finding_resolved` event carrying the original topic/severity. -/
def resolveFinding (now : Nat) (st : Store) (findingId resolvedBy : String) : Store :=
  let found := getFinding st findingId
  let retagged := st.findings.map
    (fun f => if f.id == findingId then { f with status := "resolved" } else f)
  let st1 : Store := { st with findings := retagged }
  match found with
  | some f =>
    (triggerNotifications now st1
      { event_type := "finding_resolved"
        source_id := findingId
        source_type := "finding"
        source_agent_id := resolvedBy
        topic := some f.topic
        severity := f.severity
        status := some "resolved"
        context_id := f.context_id
        title := f.title }).2
  | none => st1

/-- Read `subscriptions/{subscriberId}/{subscriptionId}.json`. -/
def getSubscription (st : Store) (subscriberId subscriptionId : String) : Option Subscription :=
  st.subs.find? (fun s => s.subscriber_id == subscriberId && s.id == subscriptionId)

/-- Write a subscription document at its mailbox path: upsert. -/
def putSubscription (st : Store) (s : Subscription) : Store :=
  if st.subs.any (fun u => u.subscriber_id == s.subscriber_id && u.id == s.id) then
    let replaced := st.subs.map
      (fun u => if u.subscriber_id == s.subscriber_id && u.id == s.id then s else u)
    { st with subs := replaced }
  else
    { st with subs := st.subs ++ [s] }

/-- `cancelSubscription`: read the subscription (false when the document
is missing), set its status to `expired` and rewrite it with the
`status:expired` tag set, returning true. -/
def cancelSubscription (st : Store) (subscriberId subscriptionId : String) : Bool × Store :=
  match getSubscription st subscriberId subscriptionId with
  | none => (false, st)
  | some sub => (true, putSubscription st { sub with status := SubStatus.expired })

/-- `listAgents` with no options: every document tagged `agent`. -/
def listAgents (st : Store) : List AgentCard :=
  st.agents

/-- Persist a compaction manifest at
`contexts/{id}/compaction-manifest.json` (upsert by context). -/
def putManifest (st : Store) (contextId : String) (m : CompactionManifest) : Store :=
  if st.manifests.any (fun p => p.1 == contextId) then
    let replaced := st.manifests.map
      (fun p => if p.1 == contextId then (contextId, m) else p)
    { st with manifests := replaced }
  else
    { st with manifests := st.manifests ++ [(contextId, m)] }

/-- The manifest half of `getContextSummaryWithManifest`: query the
context's findings/tasks/agents, build the lightweight descriptor manifest
with the aggregate stats, and persist it (storage failures swallowed; in
the model the write succeeds).  The accompanying markdown report
(`getContextSummary`) is a rendered string consumed by humans only and is
not modelled. -/
def getContextSummaryWithManifest (now : Nat) (st : Store) (contextId : String) :
    CompactionManifest × Store :=
  let findings := queryFindings st { context_id := some contextId, limit := 100, offset := 0 }
  let tasks := queryTasks st { context_id := some contextId, limit := 100, offset := 0 }
  let agents := listAgents st
  let activeAgents := agents.filter (fun a => a.status == "active")
  let unresolved := findings.filter (fun f => f.status != "resolved")
  let activeTasks := tasks.filter
    (fun t => t.status == TaskStatus.working || t.status == TaskStatus.claimed)
  let blockedTasks := tasks.filter (fun t => t.status == TaskStatus.blocked)
  let manifest : CompactionManifest :=
    { contextId := contextId
      timestamp := now
      findingIds := findings.map (fun f =>
        { id := f.id, topic := f.topic, severity := f.severity
          status := f.status, confidence := f.confidence })
      taskIds := tasks.map (fun t =>
        { id := t.id, type := t.type, status := t.status, priority := t.priority.getD 2 })
      agentIds := activeAgents.map (fun a => a.id)
      stats :=
        { totalFindings := findings.length
          unresolvedFindings := unresolved.length
          activeTasks := activeTasks.length
          blockedTasks := blockedTasks.length } }
  (manifest, putManifest st contextId manifest)

/-- `hydrateFromManifest`: re-fetch every finding and task listed in the
manifest by id, silently dropping entries whose record no longer loads. -/
def hydrateFromManifest (st : Store) (m : CompactionManifest) :
    List Finding × List Task :=
  (m.findingIds.filterMap (fun r => getFinding st r.id),
   m.taskIds.filterMap (fun r => getTask st r.id))

/-- Modelled from the claim wording for subscription matching: identical to
`subscriptionMatches` except that a non-empty severity allow-list requires
the event's severity to be a member of the list — an event that carries no
severity is excluded.  Used only to exhibit where `findMatchingSubscriptions`
departs from that reading. -/
def subscriptionMatchesSpec (now : Nat) (e : BlackboardEvent) (s : Subscription) : Bool :=
  (match s.expires_at with | some t => !(t < now : Bool) | none => true)
  && !((s.filters.bind (fun f => f.exclude_self) != some false) && s.subscriber_id == e.source_agent_id)
  && (match s.pattern_type with
      | .topic => e.topic == some s.pattern_value
      | .agent => e.source_agent_id == s.pattern_value
      | .status => e.status == some s.pattern_value
      | .context => e.context_id == some s.pattern_value
      | .entity => e.source_type == s.pattern_value)
  && (match s.filters.bind (fun f => f.severity) with
      | some l =>
        if l.isEmpty then true
        else match e.severity with
          | some sev => l.contains sev
          | none => false
      | none => true)

/-- Well-formedness of the store's task corpus: document paths
`tasks/{id}.json` are unique, so no two decoded tasks share an id.  Every
store reachable through the write operations (which upsert by id) has this
property. -/
def TaskIdsNodup (st : Store) : Prop :=
  (st.tasks.map (fun t => t.id)).Nodup

/-- The query `getReadyTasks` issues for its pending-task fetch. -/
def pendingQuery : TaskQuery :=
  { status := some TaskStatus.pending, limit := 100, offset := 0 }

/-- Fixture: a pending task with no dependencies. -/
def taskA : Task :=
  { id := "tA", title := "audit auth", type := "analysis", priority := some 1
    status := .pending, created_by := "alice" }

/-- Fixture: a store holding just `taskA`. -/
def stW : Store := { tasks := [taskA] }

/-- Fixture: an active topic subscription with a severity allow-list. -/
def subSec : Subscription :=
  { id := "s1", subscriber_id := "watcher", pattern_type := .topic
    pattern_value := "security"
    filters := some { severity := some ["high", "critical"] }
    status := .active }

/-- Fixture: an event on the subscribed topic that carries no severity. -/
def evNoSev : BlackboardEvent :=
  { event_type := "task_created", source_id := "x1", source_type := "task"
    source_agent_id := "worker", topic := some "security", title := "t" }

/-- Fixture: a store holding just `subSec`. -/
def stSubs : Store := { subs := [subSec] }

/-- Fixture: a published high-severity finding. -/
def fHigh : Finding :=
  { id := "f1", agent_id := "scanner", topic := "security", title := "XSS"
    confidence := 9/10, severity := some "high" }

/-- Fixture: a store holding just `fHigh`. -/
def stF : Store := { findings := [fHigh] }

/-- Fixture: a findings query asking for any of two severities. -/
def qSev : FindingQuery := { severity := some ["high", "critical"] }

/-- Fixture: an active subscription without filters. -/
def subAct : Subscription :=
  { id := "s2", subscriber_id := "w", pattern_type := .topic, pattern_value := "x"
    status := .active }

/-- Fixture: a store holding just `subAct`. -/
def stS : Store := { subs := [subAct] }

/-- Fixture: a status-only task update moving a task to `working`. -/
def updW : TaskUpdates := { status := some .working }

/-- Fixture: an event on topic `x` from an agent other than `w`. -/
def evX : BlackboardEvent :=
  { event_type := "finding_created", source_id := "f9", source_type := "finding"
    source_agent_id := "other", topic := some "x", title := "t" }

/-! Helper lemmas about the store primitives. -/

theorem find?_map_replace {α : Type} (p : α → Bool) (t : α) (hp : p t = true) :
    ∀ l : List α, l.any p = true →
      (l.map (fun u => if p u then t else u)).find? p = some t := by
  intro l
  induction l with
  | nil => intro h; simp at h
  | cons u l ih =>
    intro h
    by_cases hu : p u = true
    · simp [hu, List.find?_cons_of_pos, hp]
    · have hu' : p u = false := by simpa using hu
      have h' : l.any p = true := by simpa [List.any_cons, hu'] using h
      simp only [List.map_cons, hu', if_false]
      rw [List.find?_cons_of_neg _ (by simp [hu'])]
      exact ih h'

theorem find?_append_of_none {α : Type} (p : α → Bool) (t : α) (hp : p t = true) :
    ∀ l : List α, l.any p = false →
      (l ++ [t]).find? p = some t := by
  intro l
  induction l with
  | nil => intro _; simp [List.find?, hp]
  | cons u l ih =>
    intro h
    have hu : p u = false := by
      by_contra hc
      simp [List.any_cons, Bool.not_eq_false] at hc
      simp [List.any_cons, hc] at h
    have h' : l.any p = false := by simpa [List.any_cons, hu] using h
    rw [List.cons_append, List.find?_cons_of_neg _ (by simp [hu])]
    exact ih h'

theorem getTask_putTask (st : Store) (t : Task) :
    getTask (putTask st t) t.id = some t := by
  unfold getTask putTask
  by_cases h : st.tasks.any (fun u => u.id == t.id) = true
  · simp only [h, if_true]
    exact find?_map_replace _ t (by simp) st.tasks h
  · have h' : st.tasks.any (fun u => u.id == t.id) = false := by simpa using h
    simp only [h', Bool.false_eq_true, if_false]
    exact find?_append_of_none _ t (by simp) st.tasks h'

theorem getSubscription_putSubscription (st : Store) (s : Subscription) :
    getSubscription (putSubscription st s) s.subscriber_id s.id = some s := by
  unfold getSubscription putSubscription
  by_cases h : st.subs.any (fun u => u.subscriber_id == s.subscriber_id && u.id == s.id) = true
  · simp only [h, if_true]
    exact find?_map_replace _ s (by simp) st.subs h
  · have h' : st.subs.any (fun u => u.subscriber_id == s.subscriber_id && u.id == s.id) = false := by
      simpa using h
    simp only [h', Bool.false_eq_true, if_false]
    exact find?_append_of_none _ s (by simp) st.subs h'

theorem notifyFold_tasks (now : Nat) (e : BlackboardEvent) :
    ∀ (l : List Subscription) (acc : Nat × Store),
      ((l.foldl (fun acc sub => (acc.1 + 1, createNotification now acc.2 sub e)) acc).2).tasks
        = acc.2.tasks := by
  intro l
  induction l with
  | nil => intro acc; rfl
  | cons s l ih =>
    intro acc
    rw [List.foldl_cons, ih]
    rfl

theorem triggerNotifications_tasks (now : Nat) (st : Store) (e : BlackboardEvent) :
    ((triggerNotifications now st e).2).tasks = st.tasks := by
  unfold triggerNotifications
  exact notifyFold_tasks now e _ (0, st)

theorem getTask_some_id (st : Store) (taskId : String) (t : Task)
    (h : getTask st taskId = some t) : t.id = taskId := by
  have := List.find?_some h
  simpa using this

theorem getSubscription_some_ids (st : Store) (a sid : String) (s : Subscription)
    (h : getSubscription st a sid = some s) : s.subscriber_id = a ∧ s.id = sid := by
  have := List.find?_some h
  simpa using this

theorem getTask_eq_of_tasks_eq (st1 st2 : Store) (h : st1.tasks = st2.tasks) (i : String) :
    getTask st1 i = getTask st2 i := by
  unfold getTask
  rw [h]

theorem claimTask_pending_eq (now : Nat) (st : Store) (taskId agentId : String)
    (t : Task) (h : getTask st taskId = some t) (hs : t.status = TaskStatus.pending) :
    claimTask now st taskId agentId =
      (some (claimMutate now t agentId), (claimCommit now st t taskId agentId).2) := by
  simp only [claimTask, h, hs, if_pos]
  rfl

theorem claimCommit_stored (now : Nat) (st : Store) (t : Task) (taskId agentId : String)
    (hid : t.id = taskId) :
    getTask (claimCommit now st t taskId agentId).2 taskId = some (claimMutate now t agentId) := by
  simp only [claimCommit]
  rw [getTask_eq_of_tasks_eq _ (putTask st (claimMutate now t agentId))
    (triggerNotifications_tasks now (putTask st (claimMutate now t agentId)) _) taskId]
  subst hid
  exact getTask_putTask st (claimMutate now t agentId)

theorem claimTask_success_stored (now : Nat) (st : Store) (taskId agentId : String)
    (t : Task) (h : getTask st taskId = some t) (hs : t.status = TaskStatus.pending) :
    (claimTask now st taskId agentId).1 = some (claimMutate now t agentId)
    ∧ getTask (claimTask now st taskId agentId).2 taskId = some (claimMutate now t agentId) := by
  have hid : t.id = taskId := getTask_some_id st taskId t h
  have heq := claimTask_pending_eq now st taskId agentId t h hs
  constructor
  · rw [heq]
  · rw [heq]
    exact claimCommit_stored now st t taskId agentId hid

/-- C2: `claimTask` returns null and leaves the store untouched when the
task is missing or not pending; on a pending task it returns the record
with `status=claimed`, `assigned_to=agentId`, `claimed_at=now`, and that
exact record is what a re-read of the task path yields. -/
theorem claimTask_requires_pending (now : Nat) (st : Store) (taskId agentId : String) :
    (getTask st taskId = none → claimTask now st taskId agentId = (none, st))
    ∧ (∀ t, getTask st taskId = some t → t.status ≠ TaskStatus.pending →
        claimTask now st taskId agentId = (none, st))
    ∧ (∀ t, getTask st taskId = some t → t.status = TaskStatus.pending →
        (claimTask now st taskId agentId).1 =
          some { t with status := TaskStatus.claimed, assigned_to := some agentId,
                        claimed_at := some now }
        ∧ getTask (claimTask now st taskId agentId).2 taskId =
          some { t with status := TaskStatus.claimed, assigned_to := some agentId,
                        claimed_at := some now }) := by
  refine ⟨?_, ?_, ?_⟩
  · intro h
    unfold claimTask
    rw [h]
  · intro t h hs
    unfold claimTask
    rw [h]
    simp [hs]
  · intro t h hs
    exact claimTask_success_stored now st taskId agentId t h hs

theorem claimTask_requires_pending_witness :
    (claimTask 7 stW "tA" "bob").1 =
      some { taskA with status := TaskStatus.claimed, assigned_to := some "bob",
                        claimed_at := some 7 } :=
  ((claimTask_requires_pending 7 stW "tA" "bob").2.2 taskA (by decide) (by decide)).1

/-- C10: frame effect of a successful claim — the record written back
differs from the stored task only in `status`, `assigned_to` and
`claimed_at`; every other field survives unchanged. -/
theorem claimTask_frame_effect (now : Nat) (st : Store) (taskId agentId : String) :
    ∀ t t', getTask st taskId = some t → t.status = TaskStatus.pending →
      getTask (claimTask now st taskId agentId).2 taskId = some t' →
      t'.id = t.id ∧ t'.title = t.title ∧ t'.description = t.description
      ∧ t'.type = t.type ∧ t'.priority = t.priority ∧ t'.created_by = t.created_by
      ∧ t'.depends_on = t.depends_on ∧ t'.findings = t.findings
      ∧ t'.artifacts = t.artifacts ∧ t'.context_id = t.context_id ∧ t'.error = t.error
      ∧ t'.status = TaskStatus.claimed ∧ t'.assigned_to = some agentId
      ∧ t'.claimed_at = some now := by
  intro t t' h hs hget
  have hstored := (claimTask_success_stored now st taskId agentId t h hs).2
  rw [hget] at hstored
  have ht' : t' = claimMutate now t agentId := Option.some.inj hstored
  subst ht'
  exact ⟨rfl, rfl, rfl, rfl, rfl, rfl, rfl, rfl, rfl, rfl, rfl, rfl, rfl, rfl⟩

theorem claimTask_frame_effect_witness :
    (claimMutate 7 taskA "bob").id = taskA.id
    ∧ (claimMutate 7 taskA "bob").title = taskA.title
    ∧ (claimMutate 7 taskA "bob").description = taskA.description
    ∧ (claimMutate 7 taskA "bob").type = taskA.type
    ∧ (claimMutate 7 taskA "bob").priority = taskA.priority
    ∧ (claimMutate 7 taskA "bob").created_by = taskA.created_by
    ∧ (claimMutate 7 taskA "bob").depends_on = taskA.depends_on
    ∧ (claimMutate 7 taskA "bob").findings = taskA.findings
    ∧ (claimMutate 7 taskA "bob").artifacts = taskA.artifacts
    ∧ (claimMutate 7 taskA "bob").context_id = taskA.context_id
    ∧ (claimMutate 7 taskA "bob").error = taskA.error
    ∧ (claimMutate 7 taskA "bob").status = TaskStatus.claimed
    ∧ (claimMutate 7 taskA "bob").assigned_to = some "bob"
    ∧ (claimMutate 7 taskA "bob").claimed_at = some 7 :=
  claimTask_frame_effect 7 stW "tA" "bob" taskA (claimMutate 7 taskA "bob")
    (by decide) (by decide) (by decide)

/-- C3: two agents racing `claimTask` on the same pending task, with both
reads ordered before both writes, BOTH receive a successful (non-null)
claimed record — each naming itself as claimant — and the store ends up
assigned to the second writer.  The claimed at-most-one-claimant guarantee
fails because the write is not conditioned on the previously observed
status. -/
theorem claimTask_race_both_succeed :
    (claimTaskRace 5 stW "tA" "alice" "bob").1 = some (claimMutate 5 taskA "alice")
    ∧ (claimTaskRace 5 stW "tA" "alice" "bob").2.1 = some (claimMutate 5 taskA "bob")
    ∧ getTask (claimTaskRace 5 stW "tA" "alice" "bob").2.2 "tA" =
        some (claimMutate 5 taskA "bob") := by
  decide

/-- C6 counterexample: `updateTask` merges a bare status change onto a
never-claimed pending task, producing a record with `status = working`
and `assigned_to` unset — the claimed invariant (`assigned_to` set iff
status is not pending) fails on a record produced by a task-mutating
operation. -/
theorem updateTask_breaks_assignment_invariant :
    (updateTask 0 stW "tA" updW).1 = some { taskA with status := TaskStatus.working }
    ∧ ¬ ((({ taskA with status := TaskStatus.working } : Task).assigned_to.isSome = true)
          ↔ ({ taskA with status := TaskStatus.working } : Task).status ≠ TaskStatus.pending) := by
  constructor
  · decide
  · decide

/-- C6 amended: `createTask` and a successful `claimTask` do satisfy the
invariant (pending records leave `assigned_to` unset, claimed records set
it), and `updateTask` never touches `assigned_to` — but since `updateTask`
merges arbitrary status values it does not maintain the iff-invariant
across all task-mutating operations. -/
theorem assignment_field_discipline (now : Nat) (st : Store) :
    (∀ input : CreateTask,
        (createTask now st input).1.status = TaskStatus.pending
        ∧ (createTask now st input).1.assigned_to = none)
    ∧ (∀ taskId agentId t', (claimTask now st taskId agentId).1 = some t' →
        t'.status = TaskStatus.claimed ∧ t'.assigned_to = some agentId)
    ∧ (∀ taskId u t t', getTask st taskId = some t →
        (updateTask now st taskId u).1 = some t' →
        t'.assigned_to = t.assigned_to) := by
  refine ⟨?_, ?_, ?_⟩
  · intro input
    exact ⟨rfl, rfl⟩
  · intro taskId agentId t' h
    cases hget : getTask st taskId with
    | none =>
      simp only [claimTask, hget] at h
      simp at h
    | some t =>
      by_cases hs : t.status = TaskStatus.pending
      · rw [claimTask_pending_eq now st taskId agentId t hget hs] at h
        have h2 : some (claimMutate now t agentId) = some t' := h
        have ht' : t' = claimMutate now t agentId := (Option.some.inj h2).symm
        subst ht'
        exact ⟨rfl, rfl⟩
      · simp only [claimTask, hget] at h
        rw [if_neg hs] at h
        simp at h
  · intro taskId u t t' hget h
    have hfst : (updateTask now st taskId u).1 = some (applyUpdates t u) := by
      simp only [updateTask, hget]
      cases hu : u.status with
      | none => rfl
      | some s =>
        by_cases hne : s ≠ t.status
        · simp [hne]
        · simp [hne]
    rw [hfst] at h
    have ht' : applyUpdates t u = t' := Option.some.inj h
    subst ht'
    rfl

theorem assignment_field_discipline_witness :
    (claimMutate 7 taskA "bob").status = TaskStatus.claimed
    ∧ (claimMutate 7 taskA "bob").assigned_to = some "bob" :=
  (assignment_field_discipline 7 stW).2.1 "tA" "bob" (claimMutate 7 taskA "bob") (by decide)

/-- C7: acknowledging a finding id with no backing document is silent —
no notification appears (indeed the mailboxes are untouched for every id:
this code path emits no event at all, unlike `resolveFinding`), and with
the store's update-on-missing being the NotFound no-op, the whole store is
returned unchanged rather than an error propagating to the caller. -/
theorem acknowledge_unknown_silent (st : Store) (findingId agentId : String) :
    (acknowledgeFinding st findingId agentId).notifications = st.notifications
    ∧ (getFinding st findingId = none → acknowledgeFinding st findingId agentId = st) := by
  constructor
  · rfl
  · intro h
    unfold getFinding at h
    have hall : ∀ f ∈ st.findings, (f.id == findingId) = false := by
      intro f hf
      simpa using List.find?_eq_none.mp h f hf
    unfold acknowledgeFinding
    have hmap : st.findings.map
        (fun f => if f.id == findingId then { f with status := "acknowledged" } else f)
        = st.findings := by
      rw [List.map_congr_left (g := fun f => f) ?_]
      · exact List.map_id st.findings
      · intro f hf
        simp [hall f hf]
    rw [hmap]

theorem acknowledge_unknown_silent_witness :
    acknowledgeFinding stF "zzz" "bob" = stF :=
  (acknowledge_unknown_silent stF "zzz" "bob").2 (by decide)

/-- C8 counterexample: cancelling the same subscription twice — the second
call still finds the (now expired) document, rewrites it and reports
true, not the failure result the claim demands for an already-cancelled
subscription. -/
theorem cancel_twice_returns_true :
    (cancelSubscription stS "w" "s2").1 = true
    ∧ (cancelSubscription (cancelSubscription stS "w" "s2").2 "w" "s2").1 = true := by
  decide

/-- C8 amended: `cancelSubscription` marks the subscription expired and
returns true whenever the document exists — including when it is already
cancelled (the rewrite is idempotent in effect) — and returns false only
for a nonexistent subscription. -/
theorem cancelSubscription_characterization (st : Store) (a sid : String) :
    (getSubscription st a sid = none → cancelSubscription st a sid = (false, st))
    ∧ (∀ sub, getSubscription st a sid = some sub →
        (cancelSubscription st a sid).1 = true
        ∧ getSubscription (cancelSubscription st a sid).2 a sid =
            some { sub with status := SubStatus.expired }) := by
  constructor
  · intro h
    unfold cancelSubscription
    rw [h]
  · intro sub h
    obtain ⟨ha, hid⟩ := getSubscription_some_ids st a sid sub h
    constructor
    · unfold cancelSubscription
      rw [h]
    · unfold cancelSubscription
      rw [h]
      subst ha
      subst hid
      exact getSubscription_putSubscription st { sub with status := SubStatus.expired }

theorem cancelSubscription_characterization_witness :
    (cancelSubscription stS "w" "s2").1 = true :=
  ((cancelSubscription_characterization stS "w" "s2").2 subAct (by decide)).1

theorem getFinding_some_id (st : Store) (findingId : String) (f : Finding)
    (h : getFinding st findingId = some f) : f.id = findingId := by
  have := List.find?_some h
  simpa using this

theorem filterMap_getFinding_refs (st : Store) :
    ∀ refs : List FindingRef,
      (refs.filterMap (fun r => getFinding st r.id)).map (fun f => f.id)
        = (refs.map (fun r => r.id)).filter (fun i => (getFinding st i).isSome) := by
  intro refs
  induction refs with
  | nil => rfl
  | cons r refs ih =>
    cases h : getFinding st r.id with
    | none => simp [List.filterMap_cons, h, List.filter_cons, ih]
    | some f =>
      have hid : f.id = r.id := getFinding_some_id st r.id f h
      simp [List.filterMap_cons, h, List.filter_cons, ih, hid]

theorem filterMap_getTask_refs (st : Store) :
    ∀ refs : List TaskRef,
      (refs.filterMap (fun r => getTask st r.id)).map (fun t => t.id)
        = (refs.map (fun r => r.id)).filter (fun i => (getTask st i).isSome) := by
  intro refs
  induction refs with
  | nil => rfl
  | cons r refs ih =>
    cases h : getTask st r.id with
    | none => simp [List.filterMap_cons, h, List.filter_cons, ih]
    | some t =>
      have hid : t.id = r.id := getTask_some_id st r.id t h
      simp [List.filterMap_cons, h, List.filter_cons, ih, hid]

/-- C9: hydrating the manifest built by `getContextSummaryWithManifest`
against any later store state returns exactly the manifest's listed
finding/task ids, minus precisely the entries whose record no longer
fetches — dropped silently, never failing the hydration. -/
theorem manifest_hydrate_roundtrip (now : Nat) (st1 st2 : Store) (contextId : String) :
    ((hydrateFromManifest st2 (getContextSummaryWithManifest now st1 contextId).1).1.map
        (fun f => f.id)
      = (((getContextSummaryWithManifest now st1 contextId).1.findingIds).map
          (fun r => r.id)).filter (fun i => (getFinding st2 i).isSome))
    ∧ ((hydrateFromManifest st2 (getContextSummaryWithManifest now st1 contextId).1).2.map
        (fun t => t.id)
      = (((getContextSummaryWithManifest now st1 contextId).1.taskIds).map
          (fun r => r.id)).filter (fun i => (getTask st2 i).isSome)) :=
  ⟨filterMap_getFinding_refs st2 _, filterMap_getTask_refs st2 _⟩

theorem subscriptionMatches_iff (now : Nat) (e : BlackboardEvent) (s : Subscription) :
    subscriptionMatches now e s = true ↔
      ((∀ texp, s.expires_at = some texp → ¬ texp < now)
       ∧ (s.subscriber_id = e.source_agent_id →
            s.filters.bind (fun f => f.exclude_self) = some false)
       ∧ (match s.pattern_type with
          | .topic => e.topic = some s.pattern_value
          | .agent => e.source_agent_id = s.pattern_value
          | .status => e.status = some s.pattern_value
          | .context => e.context_id = some s.pattern_value
          | .entity => e.source_type = s.pattern_value)
       ∧ (∀ l, s.filters.bind (fun f => f.severity) = some l → l ≠ [] →
           ∀ sev, e.severity = some sev → sev ∈ l)) := by
  have h1 : (match s.expires_at with | some t => !(t < now : Bool) | none => true) = true
      ↔ (∀ texp, s.expires_at = some texp → ¬ texp < now) := by
    cases s.expires_at <;> simp
  have h2 : (!((s.filters.bind (fun f => f.exclude_self) != some false)
        && s.subscriber_id == e.source_agent_id)) = true
      ↔ (s.subscriber_id = e.source_agent_id →
          s.filters.bind (fun f => f.exclude_self) = some false) := by
    by_cases hb : s.filters.bind (fun f => f.exclude_self) = some false <;>
      by_cases hsub : s.subscriber_id = e.source_agent_id <;>
        simp [hb, hsub]
  have h3 : (match s.pattern_type with
      | .topic => e.topic == some s.pattern_value
      | .agent => e.source_agent_id == s.pattern_value
      | .status => e.status == some s.pattern_value
      | .context => e.context_id == some s.pattern_value
      | .entity => e.source_type == s.pattern_value) = true
      ↔ (match s.pattern_type with
      | .topic => e.topic = some s.pattern_value
      | .agent => e.source_agent_id = s.pattern_value
      | .status => e.status = some s.pattern_value
      | .context => e.context_id = some s.pattern_value
      | .entity => e.source_type = s.pattern_value) := by
    cases s.pattern_type <;> simp
  have h4 : (match s.filters.bind (fun f => f.severity) with
      | some l =>
        if l.isEmpty then true
        else match e.severity with
          | some sev => l.contains sev
          | none => true
      | none => true) = true
      ↔ (∀ l, s.filters.bind (fun f => f.severity) = some l → l ≠ [] →
          ∀ sev, e.severity = some sev → sev ∈ l) := by
    cases hb : s.filters.bind (fun f => f.severity) with
    | none => simp
    | some l =>
      cases l with
      | nil => simp
      | cons a l2 =>
        cases e.severity with
        | none => simp
        | some sev => simp
  unfold subscriptionMatches
  simp only [Bool.and_eq_true]
  rw [h1, h2, h3, h4]
  tauto

/-- C4 amended: a stored subscription is returned by
`findMatchingSubscriptions` iff it is active, not lazily expired, does not
self-notify unless `exclude_self` is explicitly false, matches the event
field selected by its pattern type — and, when a non-empty severity
allow-list is present AND the event carries a severity, that severity is a
member of the list (an event carrying no severity passes the allow-list). -/
theorem findMatching_characterization (now : Nat) (st : Store) (e : BlackboardEvent)
    (s : Subscription) :
    s ∈ findMatchingSubscriptions now st e ↔
      s ∈ st.subs ∧ s.status = SubStatus.active
      ∧ (∀ texp, s.expires_at = some texp → ¬ texp < now)
      ∧ (s.subscriber_id = e.source_agent_id →
          s.filters.bind (fun f => f.exclude_self) = some false)
      ∧ (match s.pattern_type with
         | .topic => e.topic = some s.pattern_value
         | .agent => e.source_agent_id = s.pattern_value
         | .status => e.status = some s.pattern_value
         | .context => e.context_id = some s.pattern_value
         | .entity => e.source_type = s.pattern_value)
      ∧ (∀ l, s.filters.bind (fun f => f.severity) = some l → l ≠ [] →
          ∀ sev, e.severity = some sev → sev ∈ l) := by
  unfold findMatchingSubscriptions
  rw [List.mem_filter, List.mem_filter, subscriptionMatches_iff]
  simp only [beq_iff_eq]
  tauto

theorem findMatching_characterization_witness :
    subAct ∈ findMatchingSubscriptions 0 stS evX := by
  refine (findMatching_characterization 0 stS evX subAct).mpr
    ⟨by simp [stS], rfl, ?_, ?_, rfl, ?_⟩
  · intro texp htexp
    simp [subAct] at htexp
  · intro hsub
    exact absurd hsub (by decide)
  · intro l hl
    simp [subAct] at hl

/-- C4 counterexample: an event carrying no severity is matched by a
subscription with a non-empty severity allow-list — the code includes the
subscription while the claim's reading of the allow-list (the event's
severity must be a member of the list) rejects it. -/
theorem findMatching_severity_absent_counterexample :
    subSec ∈ findMatchingSubscriptions 0 stSubs evNoSev
    ∧ subscriptionMatchesSpec 0 evNoSev subSec = false := by
  constructor
  · decide
  · decide

/-- C5 (code evidence): a findings query asking for any of two severities
pushes both severities into the match-all tag conjunction — which no
document can satisfy, since a finding carries exactly one severity tag —
so the query returns nothing, while the spec's client-side OR semantics
(`queryFindingsSpec`) returns the high-severity finding. -/
theorem query_severity_list_returns_empty :
    queryFindings stF qSev = []
    ∧ queryFindingsSpec stF qSev = [fHigh]
    ∧ fHigh ∈ stF.findings ∧ fHigh.severity = some "high" := by
  refine ⟨rfl, rfl, by simp [stF], rfl⟩

theorem append_ne_of_head_ne (p x q : String) (hne : p.data.head? ≠ q.data.head?)
    (hp : p.data ≠ []) : p ++ x ≠ q := by
  intro he
  apply hne
  have hd : (p ++ x).data = q.data := congrArg String.data he
  rw [String.data_append] at hd
  rw [← hd]
  cases hp' : p.data with
  | nil => exact absurd hp' hp
  | cons c cs => simp [hp']

theorem find?_id_of_mem_nodup (l : List Task) (h : (l.map (fun t => t.id)).Nodup)
    (t : Task) (ht : t ∈ l) :
    l.find? (fun u => u.id == t.id) = some t := by
  induction l with
  | nil => cases ht
  | cons u l ih =>
    rcases List.mem_cons.mp ht with rfl | hmem
    · rw [List.find?_cons_of_pos _ (by simp)]
    · have hnd := List.nodup_cons.mp h
      have hne : u.id ≠ t.id := by
        intro he
        have hmap : t.id ∈ l.map (fun t => t.id) := List.mem_map_of_mem (fun t => t.id) hmem
        rw [← he] at hmap
        exact hnd.1 hmap
      rw [List.find?_cons_of_neg _ (by simp [hne])]
      exact ih hnd.2 hmem

theorem getTask_of_mem (st : Store) (h : TaskIdsNodup st) (t : Task) (ht : t ∈ st.tasks) :
    getTask st t.id = some t :=
  find?_id_of_mem_nodup st.tasks h t ht

theorem mem_queryTasks (st : Store) (h : TaskIdsNodup st) (q : TaskQuery) (t : Task) :
    t ∈ queryTasks st q ↔
      t ∈ st.tasks
      ∧ ((taskQueryTags q).all (fun tg => (buildTaskTags t).contains tg)) = true := by
  unfold queryTasks
  rw [List.mem_filterMap]
  constructor
  · rintro ⟨d, hd, hfd⟩
    have hd' := List.mem_filter.mp hd
    have hgd : getTask st d.id = some d := getTask_of_mem st h d hd'.1
    rw [hgd] at hfd
    have hdt : d = t := Option.some.inj hfd
    subst hdt
    exact ⟨hd'.1, hd'.2⟩
  · rintro ⟨hm, htags⟩
    exact ⟨t, List.mem_filter.mpr ⟨hm, htags⟩, getTask_of_mem st h t hm⟩

theorem mem_buildTaskTags_status_pending (t : Task) :
    "status:pending" ∈ buildTaskTags t ↔ t.status = TaskStatus.pending := by
  constructor
  · intro hmem
    unfold buildTaskTags at hmem
    simp only [List.append_assoc, List.mem_append, List.mem_cons, List.not_mem_nil,
      or_false] at hmem
    rcases hmem with (h | h | h | h | h | h) | h | h
    · exact absurd h (by decide)
    · exact absurd h (by decide)
    · exact absurd h.symm
        (append_ne_of_head_ne "type:" t.type "status:pending" (by decide) (by decide))
    · cases hst : t.status <;> rw [hst] at h
      all_goals exact absurd h (by decide)
    · cases hp : t.priority with
      | some p =>
        rw [hp] at h
        exact absurd h.symm
          (append_ne_of_head_ne "priority:" (toString p) "status:pending" (by decide) (by decide))
      | none =>
        rw [hp] at h
        exact absurd h (by decide)
    · exact absurd h.symm
        (append_ne_of_head_ne "creator:" t.created_by "status:pending" (by decide) (by decide))
    · revert h
      cases t.assigned_to with
      | some a =>
        intro h
        simp only [List.mem_singleton] at h
        exact absurd h.symm
          (append_ne_of_head_ne "assignee:" a "status:pending" (by decide) (by decide))
      | none =>
        intro h
        simp at h
    · revert h
      cases t.context_id with
      | some c =>
        intro h
        simp only [List.mem_singleton] at h
        exact absurd h.symm
          (append_ne_of_head_ne "ctx:" c "status:pending" (by decide) (by decide))
      | none =>
        intro h
        simp at h
  · intro hst
    unfold buildTaskTags
    rw [hst]
    exact List.mem_append_left _ (List.mem_append_left _
      (List.mem_cons_of_mem _ (List.mem_cons_of_mem _ (List.mem_cons_of_mem _
        (List.mem_cons_self _ _)))))

theorem pending_query_tags_iff (t : Task) :
    ((taskQueryTags pendingQuery).all (fun tg => (buildTaskTags t).contains tg)) = true
    ↔ t.status = TaskStatus.pending := by
  have hq : taskQueryTags pendingQuery = ["task", "status:pending"] := rfl
  rw [hq]
  simp only [List.all_cons, List.all_nil, Bool.and_true, Bool.and_eq_true]
  constructor
  · rintro ⟨_, hcon⟩
    exact (mem_buildTaskTags_status_pending t).mp (by simpa using hcon)
  · intro hst
    constructor
    · simp [buildTaskTags]
    · simpa using (mem_buildTaskTags_status_pending t).mpr hst

theorem depsCompleted_iff (st : Store) (t : Task) :
    depsCompleted st t = true ↔
      ∀ l, t.depends_on = some l →
        ∀ i ∈ l, ∃ d, getTask st i = some d ∧ d.status = TaskStatus.completed := by
  unfold depsCompleted
  cases hdep : t.depends_on with
  | none => simp
  | some l =>
    cases l with
    | nil => simp
    | cons a l2 =>
      simp only [List.isEmpty_cons, Bool.false_eq_true, if_false]
      rw [List.all_eq_true]
      constructor
      · intro hall l0 hl0
        have hl : l0 = a :: l2 := (Option.some.inj hl0).symm
        subst hl
        intro i hi
        have hthis := hall i hi
        cases hg : getTask st i with
        | none => rw [hg] at hthis; simp at hthis
        | some d =>
          rw [hg] at hthis
          exact ⟨d, rfl, by simpa using hthis⟩
      · intro hall i hi
        obtain ⟨d, hd, hs⟩ := hall (a :: l2) rfl i hi
        rw [hd]
        simpa using hs

/-- C1: with no capability restriction, a task appears in `getReadyTasks`
iff it is stored with status `pending` and every id in a non-empty
`depends_on` fetches to an existing task whose status is exactly
`completed` — a missing dependency or one in any other status excludes the
dependent task, and pending tasks with empty or absent `depends_on` are
always included. -/
theorem getReady_dependency_gate (st : Store) (h : TaskIdsNodup st) (t : Task) :
    t ∈ getReadyTasks st none ↔
      t ∈ st.tasks ∧ t.status = TaskStatus.pending
      ∧ ∀ l, t.depends_on = some l →
          ∀ i ∈ l, ∃ d, getTask st i = some d ∧ d.status = TaskStatus.completed := by
  have hrf : getReadyTasks st none =
      sortByPriority ((queryTasks st pendingQuery).filter (fun u => depsCompleted st u)) := rfl
  rw [hrf]
  unfold sortByPriority
  rw [List.mem_mergeSort, List.mem_filter, mem_queryTasks st h pendingQuery t,
      pending_query_tags_iff, depsCompleted_iff]
  tauto

theorem getReady_dependency_gate_witness :
    taskA ∈ getReadyTasks stW none := by
  refine (getReady_dependency_gate stW ?_ taskA).mpr ⟨by decide, rfl, ?_⟩
  · unfold TaskIdsNodup
    decide
  · intro l hl
    simp [taskA] at hl

end Blackboard
